import Mathlib

/-!
Shallow embedding of the firmware in
src/hardware/arduino_sensor_data_acquisition/src/main.cpp
(combined AS7262 + BH1750 CSV logger).

The program is single-threaded: setup() runs once, then loop() repeats
forever.  Every interaction with the outside world (I2C drivers, serial
port, delays) is modelled as an event; the environment (results of the
driver calls) is an oracle supplied up front.  Arduino's Print
formatting (Print::printNumber for integers, Print::printFloat for
floats, println's "\r\n" terminator) is embedded over Nat and Rat;
float values are modelled by rationals.  Divergent waits (the while(1)
fault halts and the dataReady poll loop) are cut by fuel: a run with a
given fuel shows the finite prefix of events produced so far.
-/

namespace LightWell

/-- Line terminator written by Arduino Print::println (CR then LF). -/
def crlf : String := "\r\n"

/-- Decimal digit characters of a natural number, most significant first,
following Arduino Print::printNumber's do/while digit extraction in base 10
(at least one digit, so 0 prints as "0").  The first argument is fuel for
structural recursion; printNat supplies enough. -/
def digitCharsAux : ℕ → ℕ → List Char
  | 0, _ => []
  | fuel + 1, n =>
    if n < 10 then [Char.ofNat (48 + n)]
    else digitCharsAux fuel (n / 10) ++ [Char.ofNat (48 + n % 10)]

/-- Decimal rendering of a natural number, as Arduino Serial.print does for
unsigned integer values (base DEC). -/
def printNat (n : ℕ) : String := String.mk (digitCharsAux (n + 1) n)

/-- Fractional digits of Arduino Print::printFloat.  The C loop keeps a real
remainder and repeats "remainder *= 10; toPrint = (unsigned)remainder;
print(toPrint); remainder -= toPrint".  Here the remainder is kept as the
exact fraction p / q (so remainder * 10 = (p * 10) / q, its integer
truncation is p * 10 / q, and the new remainder is (p * 10 % q) / q). -/
def fracDigitsAux (q : ℕ) : ℕ → ℕ → List Char
  | _, 0 => []
  | p, d + 1 =>
    let t : ℕ := p * 10 / q
    digitCharsAux (t + 1) t ++ fracDigitsAux q (p * 10 % q) d

/-- Arduino Print::printFloat(number, digits), over rationals: overflow guard
at 4294967040, optional minus sign, half-up rounding (0.5 / 10^digits) added
before splitting into integer part and digit-by-digit fractional part.  The
rounded magnitude abs x + 1 / (2 * 10^digits) is carried as the exact
fraction p / q with q = den * 2 * 10^digits, so the integer part is p / q
and the fractional remainder starts at (p % q) / q.  (The nan/inf branches
of the C code have no rational counterpart.) -/
def printFloat (x : ℚ) (digits : ℕ) : String :=
  if x > 4294967040 ∨ x < -4294967040 then "ovf"
  else
    let sign : String := if x < 0 then "-" else ""
    let q : ℕ := x.den * (2 * 10 ^ digits)
    let p : ℕ := x.num.natAbs * (2 * 10 ^ digits) + x.den
    let ip : ℕ := p / q
    sign ++ printNat ip ++
      (if digits = 0 then "" else "." ++ String.mk (fracDigitsAux q (p % q) digits))

/-- Number of AS7262 spectral channels (AS726x_NUM_CHANNELS in
Adafruit_AS726x.h). -/
def AS726x_NUM_CHANNELS : ℕ := 6

/-- Channel index enum from Adafruit_AS726x.h: AS726x_VIOLET = 0. -/
def AS726x_VIOLET : Fin 6 := 0
/-- Channel index enum from Adafruit_AS726x.h: AS726x_BLUE = 1. -/
def AS726x_BLUE : Fin 6 := 1
/-- Channel index enum from Adafruit_AS726x.h: AS726x_GREEN = 2. -/
def AS726x_GREEN : Fin 6 := 2
/-- Channel index enum from Adafruit_AS726x.h: AS726x_YELLOW = 3. -/
def AS726x_YELLOW : Fin 6 := 3
/-- Channel index enum from Adafruit_AS726x.h: AS726x_ORANGE = 4. -/
def AS726x_ORANGE : Fin 6 := 4
/-- Channel index enum from Adafruit_AS726x.h: AS726x_RED = 5. -/
def AS726x_RED : Fin 6 := 5

/-- Oracle for one loop() iteration: the results the drivers hand back.
ready j is the result of the (j+1)-th as7262.dataReady() poll of this
cycle; channels are the six uint16 values readRawValues stores (indexed
violet = 0 .. red = 5 per the driver's contract); temp is the uint8
readTemperature result; lux the float readLightLevel result, as a
rational. -/
@[ext]
structure CycleInput where
  ready : ℕ → Bool
  channels : Fin 6 → ℕ
  temp : ℕ
  lux : ℚ

/-- Oracle for a whole run: results of the two begin() calls in setup(),
and the per-cycle driver results. -/
@[ext]
structure Env where
  as7262Begin : Bool
  bh1750Begin : Bool
  cycles : ℕ → CycleInput

/-- Observable events of the firmware, in program order. -/
inductive Ev where
  | serialBegin (baud : ℕ)
  | busInit
  | pinModeOutput
  | as7262BeginCall (ok : Bool)
  | bh1750BeginCall (ok : Bool)
  | startMeasurement
  | pollDataReady (r : Bool)
  | readRawValues
  | readTemperature
  | readLightLevel
  | emitLine (s : String)
  | delayMs (ms : ℕ)
  deriving DecidableEq, Repr

/-- Diagnostic printed when as7262.begin() fails (main.cpp line 33). -/
def as7262FailMsg : String :=
  "Error: could not connect to AS7262 (check wiring)." ++ crlf

/-- Diagnostic printed when lightMeter.begin succeeds (main.cpp line 39). -/
def bh1750ReadyMsg : String := "BH1750 ready" ++ crlf

/-- Diagnostic printed when lightMeter.begin fails (main.cpp line 41). -/
def bh1750FailMsg : String :=
  "Error: could not initialize BH1750 (check wiring)." ++ crlf

/-- Final ready diagnostic of setup() (main.cpp line 45). -/
def sensorsReadyMsg : String :=
  "Sensors initialized. Starting measurements..." ++ crlf

/-- The CSV record written by main.cpp lines 67-74, reading the shared
sensorValues buffer at the enum indices, in source order:
temp, violet, blue, green, yellow, orange, red, then lux via
Serial.println(lux, 2). -/
def csvLine (buf : Fin 6 → ℕ) (temp : ℕ) (lux : ℚ) : String :=
  printNat temp ++ "," ++
  printNat (buf AS726x_VIOLET) ++ "," ++
  printNat (buf AS726x_BLUE) ++ "," ++
  printNat (buf AS726x_GREEN) ++ "," ++
  printNat (buf AS726x_YELLOW) ++ "," ++
  printNat (buf AS726x_ORANGE) ++ "," ++
  printNat (buf AS726x_RED) ++ "," ++
  printFloat lux 2 ++ crlf

/-- The record a cycle with input c emits (the buffer holds exactly this
cycle's batch when the print statements run). -/
def cycleLine (c : CycleInput) : String := csvLine c.channels c.temp c.lux

/-- The busy-wait of main.cpp lines 53-55: while(!as7262.dataReady())
delay(5).  s j is the result of the (j+1)-th dataReady call; fuel cuts the
potentially infinite wait.  Returns the poll events produced and whether the
loop exited (some poll returned true within fuel calls). -/
def pollTrace (s : ℕ → Bool) : ℕ → List Ev × Bool
  | 0 => ([], false)
  | fuel + 1 =>
    if s 0 then ([Ev.pollDataReady true], true)
    else
      let r := pollTrace (fun j => s (j + 1)) fuel
      (Ev.pollDataReady false :: Ev.delayMs 5 :: r.1, r.2)

/-- One loop() iteration (main.cpp lines 48-77) from a given state of the
shared sensorValues buffer: startMeasurement, the dataReady poll loop, and —
only if the poll exited — readRawValues overwriting the whole buffer with
this cycle's batch, readTemperature, readLightLevel, the CSV print
statements (one emitted line), and the 1000 ms pacing delay.  Returns the
events, the buffer afterwards, and whether the cycle completed. -/
def doCycle (c : CycleInput) (buf : Fin 6 → ℕ) (fuel : ℕ) :
    List Ev × (Fin 6 → ℕ) × Bool :=
  let pr := pollTrace c.ready fuel
  if pr.2 then
    let buf2 := c.channels
    (Ev.startMeasurement :: pr.1 ++
      [Ev.readRawValues, Ev.readTemperature, Ev.readLightLevel,
       Ev.emitLine (csvLine buf2 c.temp c.lux), Ev.delayMs 1000],
     buf2, true)
  else
    (Ev.startMeasurement :: pr.1, buf, false)

/-- n successive loop() iterations starting at cycle index k, threading the
shared sensorValues buffer.  A cycle whose poll never exits (within fuel)
blocks the firmware: its partial trace is kept and no later cycle runs. -/
def runCycles (cycles : ℕ → CycleInput) (fuel : ℕ) (buf : Fin 6 → ℕ) (k : ℕ) :
    ℕ → List Ev
  | 0 => []
  | n + 1 =>
    let r := doCycle (cycles k) buf fuel
    if r.2.2 then r.1 ++ runCycles cycles fuel r.2.1 (k + 1) n else r.1

/-- setup() (main.cpp lines 22-46): serial and I2C bring-up, LED pin
configuration, then the two begin() calls with their fail-fast while(1)
halts and diagnostics.  Returns the events and whether setup completed
(false means the firmware is parked in a while(1) with no further events
ever). -/
def setupTrace (e : Env) : List Ev × Bool :=
  let pre := [Ev.serialBegin 115200, Ev.busInit, Ev.pinModeOutput,
              Ev.as7262BeginCall e.as7262Begin]
  if e.as7262Begin then
    let pre2 := pre ++ [Ev.bh1750BeginCall e.bh1750Begin]
    if e.bh1750Begin then
      (pre2 ++ [Ev.emitLine bh1750ReadyMsg, Ev.emitLine sensorsReadyMsg], true)
    else
      (pre2 ++ [Ev.emitLine bh1750FailMsg], false)
  else
    (pre ++ [Ev.emitLine as7262FailMsg], false)

/-- The zero-initialised global sensorValues buffer (main.cpp line 20). -/
def initBuf : Fin 6 → ℕ := fun _ => 0

/-- A whole run of the firmware under environment e: setup() once, then —
unless setup parked the firmware in a fault halt — n loop() iterations. -/
def run (e : Env) (fuel n : ℕ) : List Ev :=
  let st := setupTrace e
  if st.2 then st.1 ++ runCycles e.cycles fuel initBuf 0 n else st.1

/-- The serial byte stream of a trace: concatenation of the emitted lines. -/
def output : List Ev → String
  | [] => ""
  | Ev.emitLine s :: tr => s ++ output tr
  | _ :: tr => output tr

/-- Expected steady-state serial output: the concatenation of the CSV lines
of cycles k, k+1, ..., k+n-1. -/
def csvBlock (cycles : ℕ → CycleInput) (k : ℕ) : ℕ → String
  | 0 => ""
  | n + 1 => cycleLine (cycles k) ++ csvBlock cycles (k + 1) n

/-- Example cycle oracle: data ready at the first poll, temperature 24,
channels (10,20,30,40,50,60) violet to red, lux 123.456. -/
def sampleCycle : CycleInput :=
  ⟨fun _ => true, fun i => (i.val + 1) * 10, 24, mkRat 123456 1000⟩

/-- Example cycle oracle whose dataReady never becomes true. -/
def neverReadyCycle : CycleInput := ⟨fun _ => false, fun _ => 0, 0, 0⟩

/-- Example environment in which as7262.begin() fails. -/
def envA : Env := ⟨false, true, fun _ => sampleCycle⟩

/-- Example environment in which as7262.begin() succeeds and
lightMeter.begin fails. -/
def envB : Env := ⟨true, false, fun _ => sampleCycle⟩

/-- Example environment in which both sensors come up. -/
def envOk : Env := ⟨true, true, fun _ => sampleCycle⟩

/-! Helper lemmas about the decimal and float renderings. -/

theorem isDigit_ofNat_add48 {m : ℕ} (h : m < 10) :
    (Char.ofNat (48 + m)).isDigit = true := by
  interval_cases m <;> decide

theorem mem_digitCharsAux_isDigit :
    ∀ fuel n c, c ∈ digitCharsAux fuel n → c.isDigit = true := by
  intro fuel
  induction fuel with
  | zero => intro n c h; simp [digitCharsAux] at h
  | succ fuel ih =>
    intro n c h
    by_cases hn : n < 10
    · simp only [digitCharsAux, if_pos hn, List.mem_singleton] at h
      subst h
      exact isDigit_ofNat_add48 hn
    · simp only [digitCharsAux, if_neg hn, List.mem_append,
        List.mem_singleton] at h
      rcases h with h | h
      · exact ih _ _ h
      · subst h
        exact isDigit_ofNat_add48 (Nat.mod_lt _ (by norm_num))

theorem mem_printNat_isDigit {n : ℕ} {c : Char} (h : c ∈ (printNat n).data) :
    c.isDigit = true :=
  mem_digitCharsAux_isDigit _ _ _ h

theorem isDigit_not_special {c : Char} (h : c.isDigit = true) :
    c ≠ ',' ∧ c ≠ '\x0d' ∧ c ≠ '\n' ∧ c ≠ '.' ∧ c ≠ '-' := by
  refine ⟨?_, ?_, ?_, ?_, ?_⟩ <;> rintro rfl <;> revert h <;> decide

theorem digitCharsAux_single {t : ℕ} (h : t < 10) :
    digitCharsAux (t + 1) t = [Char.ofNat (48 + t)] := by
  simp [digitCharsAux, h]

theorem fracDigitsAux_spec (q : ℕ) (hq : 0 < q) :
    ∀ d p, p < q →
      (fracDigitsAux q p d).length = d ∧
      ∀ c ∈ fracDigitsAux q p d, c.isDigit = true := by
  intro d
  induction d with
  | zero => intro p _; simp [fracDigitsAux]
  | succ d ih =>
    intro p hp
    have ht : p * 10 / q < 10 := by
      apply Nat.div_lt_of_lt_mul
      omega
    have hnext : p * 10 % q < q := Nat.mod_lt _ hq
    obtain ⟨hl, hd⟩ := ih (p * 10 % q) hnext
    constructor
    · simp [fracDigitsAux, digitCharsAux_single ht, hl]
    · intro c hc
      simp only [fracDigitsAux, digitCharsAux_single ht, List.cons_append,
        List.nil_append, List.mem_cons] at hc
      rcases hc with rfl | hc
      · exact isDigit_ofNat_add48 ht
      · exact hd c hc

theorem printFloat_not_ovf {x : ℚ}
    (h : ¬(x > 4294967040 ∨ x < -4294967040)) :
    printFloat x 2 =
      (if x < 0 then "-" else "") ++
      printNat ((x.num.natAbs * (2 * 10 ^ 2) + x.den) / (x.den * (2 * 10 ^ 2))) ++
      ("." ++ String.mk (fracDigitsAux (x.den * (2 * 10 ^ 2))
        ((x.num.natAbs * (2 * 10 ^ 2) + x.den) % (x.den * (2 * 10 ^ 2))) 2)) := by
  rw [printFloat, if_neg h]
  rfl

/-- Character-level shape of the two-decimal float field: an optional minus
sign, then the integer-part digits, then a dot, then exactly two digits. -/
theorem printFloat_two_decimals (x : ℚ)
    (h : ¬(x > 4294967040 ∨ x < -4294967040)) :
    ∃ a b : List Char,
      (printFloat x 2).data = a ++ '.' :: b ∧
      b.length = 2 ∧ (∀ c ∈ b, c.isDigit = true) ∧
      (∀ c ∈ a, c = '-' ∨ c.isDigit = true) := by
  rw [printFloat_not_ovf h]
  have hq : 0 < x.den * (2 * 10 ^ 2) :=
    Nat.mul_pos x.den_pos (by norm_num)
  have hmod : (x.num.natAbs * (2 * 10 ^ 2) + x.den) % (x.den * (2 * 10 ^ 2)) <
      x.den * (2 * 10 ^ 2) := Nat.mod_lt _ hq
  obtain ⟨hlen, hdig⟩ := fracDigitsAux_spec _ hq 2 _ hmod
  refine ⟨(if x < 0 then "-" else "").data ++
    (printNat ((x.num.natAbs * (2 * 10 ^ 2) + x.den) / (x.den * (2 * 10 ^ 2)))).data,
    fracDigitsAux (x.den * (2 * 10 ^ 2))
      ((x.num.natAbs * (2 * 10 ^ 2) + x.den) % (x.den * (2 * 10 ^ 2))) 2,
    ?_, hlen, hdig, ?_⟩
  · simp [String.data_append]
  · intro c hc
    rcases List.mem_append.mp hc with hc | hc
    · left
      by_cases hx : x < 0
      · rw [if_pos hx] at hc
        simpa using hc
      · rw [if_neg hx] at hc
        simp at hc
    · right
      exact mem_printNat_isDigit hc

/-! Helper lemmas about the poll loop, the cycle traces and the output. -/

theorem pollTrace_events :
    ∀ fuel (s : ℕ → Bool) ev, ev ∈ (pollTrace s fuel).1 →
      ev = Ev.pollDataReady true ∨ ev = Ev.pollDataReady false ∨
      ev = Ev.delayMs 5 := by
  intro fuel
  induction fuel with
  | zero => intro s ev h; simp [pollTrace] at h
  | succ fuel ih =>
    intro s ev h
    by_cases hs : s 0
    · simp only [pollTrace, if_pos hs, List.mem_singleton] at h
      exact Or.inl h
    · simp only [pollTrace, if_neg hs, List.mem_cons] at h
      rcases h with rfl | rfl | h
      · exact Or.inr (Or.inl rfl)
      · exact Or.inr (Or.inr rfl)
      · exact ih _ ev h

theorem pollTrace_ok_iff :
    ∀ fuel (s : ℕ → Bool),
      (pollTrace s fuel).2 = true ↔ ∃ k, k < fuel ∧ s k = true := by
  intro fuel
  induction fuel with
  | zero => intro s; simp [pollTrace]
  | succ fuel ih =>
    intro s
    by_cases hs : s 0
    · simp only [pollTrace, if_pos hs]
      simp only [true_iff]
      exact ⟨0, by omega, hs⟩
    · simp only [pollTrace, if_neg hs, ih]
      constructor
      · rintro ⟨k, hk, hsk⟩
        exact ⟨k + 1, by omega, hsk⟩
      · rintro ⟨k, hk, hsk⟩
        cases k with
        | zero => exact absurd hsk (by simpa using hs)
        | succ k => exact ⟨k, by omega, hsk⟩

theorem pollTrace_first :
    ∀ fuel k (s : ℕ → Bool), k < fuel → s k = true →
      (∀ j, j < k → s j = false) →
      pollTrace s fuel =
        (List.flatten (List.replicate k [Ev.pollDataReady false, Ev.delayMs 5]) ++
          [Ev.pollDataReady true], true) := by
  intro fuel
  induction fuel with
  | zero => intro k s hk; omega
  | succ fuel ih =>
    intro k s hk hsk hj
    cases k with
    | zero => simp [pollTrace, hsk]
    | succ k =>
      have h0 : s 0 = false := hj 0 (by omega)
      have hrec := ih k (fun j => s (j + 1)) (by omega) hsk
        (fun j hjk => hj (j + 1) (by omega))
      simp [pollTrace, h0, hrec, List.replicate_succ]

theorem pollTrace_never :
    ∀ fuel (s : ℕ → Bool), (∀ j, s j = false) →
      pollTrace s fuel =
        (List.flatten
          (List.replicate fuel [Ev.pollDataReady false, Ev.delayMs 5]),
         false) := by
  intro fuel
  induction fuel with
  | zero => intro s _; simp [pollTrace]
  | succ fuel ih =>
    intro s h
    simp [pollTrace, h 0, ih (fun j => s (j + 1)) (fun j => h (j + 1)),
      List.replicate_succ]

theorem doCycle_not_ready {c : CycleInput} {buf : Fin 6 → ℕ} {fuel : ℕ}
    (hok : ¬(pollTrace c.ready fuel).2 = true) :
    doCycle c buf fuel = (Ev.startMeasurement :: (pollTrace c.ready fuel).1,
      buf, false) := by
  simp [doCycle, hok]

theorem doCycle_ready {c : CycleInput} {buf : Fin 6 → ℕ} {fuel : ℕ}
    (hok : (pollTrace c.ready fuel).2 = true) :
    doCycle c buf fuel =
      ((Ev.startMeasurement :: (pollTrace c.ready fuel).1) ++
        [Ev.readRawValues, Ev.readTemperature, Ev.readLightLevel,
         Ev.emitLine (cycleLine c), Ev.delayMs 1000], c.channels, true) := by
  simp [doCycle, hok, cycleLine]

theorem doCycle_emit {c : CycleInput} {buf : Fin 6 → ℕ} {fuel : ℕ}
    {str : String} (h : Ev.emitLine str ∈ (doCycle c buf fuel).1) :
    str = cycleLine c := by
  by_cases hok : (pollTrace c.ready fuel).2 = true
  · rw [doCycle_ready hok] at h
    rcases List.mem_append.mp h with h | h
    · rcases List.mem_cons.mp h with h | h
      · exact absurd h (by simp)
      · rcases pollTrace_events fuel c.ready _ h with h | h | h <;> simp at h
    · simp only [List.mem_cons, List.not_mem_nil, or_false] at h
      rcases h with h | h | h | h | h
      · simp at h
      · simp at h
      · simp at h
      · rw [Ev.emitLine.injEq] at h
        exact h
      · simp at h
  · rw [doCycle_not_ready hok] at h
    rcases List.mem_cons.mp h with h | h
    · exact absurd h (by simp)
    · rcases pollTrace_events fuel c.ready _ h with h | h | h <;> simp at h

theorem output_append : ∀ t1 t2 : List Ev,
    output (t1 ++ t2) = output t1 ++ output t2 := by
  intro t1
  induction t1 with
  | nil => intro t2; simp [output]
  | cons ev t ih =>
    intro t2
    cases ev <;> simp [output, ih, String.append_assoc]

theorem output_pollTrace : ∀ fuel (s : ℕ → Bool),
    output (pollTrace s fuel).1 = "" := by
  intro fuel
  induction fuel with
  | zero => intro s; simp [pollTrace, output]
  | succ fuel ih =>
    intro s
    by_cases hs : s 0
    · simp [pollTrace, hs, output]
    · simp [pollTrace, hs, output, ih]

theorem output_doCycle_ready {c : CycleInput} {buf : Fin 6 → ℕ} {fuel : ℕ}
    (hok : (pollTrace c.ready fuel).2 = true) :
    output (doCycle c buf fuel).1 = cycleLine c := by
  rw [doCycle_ready hok]
  show output ((Ev.startMeasurement :: (pollTrace c.ready fuel).1) ++ _) = _
  rw [output_append]
  show output (Ev.startMeasurement :: _) ++ _ = _
  rw [show ∀ t, output (Ev.startMeasurement :: t) = output t from fun t => rfl]
  rw [output_pollTrace]
  simp [output]

theorem runCycles_output :
    ∀ n (cycles : ℕ → CycleInput) fuel buf k,
      (∀ i, i < n → ∃ j, j < fuel ∧ (cycles (k + i)).ready j = true) →
      output (runCycles cycles fuel buf k n) = csvBlock cycles k n := by
  intro n
  induction n with
  | zero => intro cycles fuel buf k _; simp [runCycles, csvBlock, output]
  | succ n ih =>
    intro cycles fuel buf k h
    have hok : (pollTrace (cycles k).ready fuel).2 = true := by
      rw [pollTrace_ok_iff]
      simpa using h 0 (by omega)
    have hcy := @doCycle_ready (cycles k) buf fuel hok
    have h22 : (doCycle (cycles k) buf fuel).2.2 = true := by rw [hcy]
    have h21 : (doCycle (cycles k) buf fuel).2.1 = (cycles k).channels := by
      rw [hcy]
    simp only [runCycles, h22, if_true]
    rw [output_append, output_doCycle_ready hok]
    show _ = csvBlock cycles k (n + 1)
    rw [csvBlock]
    congr 1
    rw [h21]
    exact ih cycles fuel _ (k + 1) (fun i hi => by
      simpa [Nat.add_assoc, Nat.add_comm 1 i] using h (i + 1) (by omega))

theorem runCycles_emit :
    ∀ n (cycles : ℕ → CycleInput) fuel buf k str,
      Ev.emitLine str ∈ runCycles cycles fuel buf k n →
      ∃ i, k ≤ i ∧ i < k + n ∧ str = cycleLine (cycles i) := by
  intro n
  induction n with
  | zero => intro cycles fuel buf k str h; simp [runCycles] at h
  | succ n ih =>
    intro cycles fuel buf k str h
    simp only [runCycles] at h
    by_cases hok : (doCycle (cycles k) buf fuel).2.2 = true
    · rw [if_pos hok] at h
      rcases List.mem_append.mp h with h | h
      · exact ⟨k, Nat.le_refl k, by omega, doCycle_emit h⟩
      · obtain ⟨i, h1, h2, h3⟩ := ih cycles fuel _ (k + 1) str h
        exact ⟨i, by omega, by omega, h3⟩
    · rw [if_neg hok] at h
      exact ⟨k, Nat.le_refl k, by omega, doCycle_emit h⟩

/-! Claim theorems. -/

/-- C1: every cycle that reaches emission emits a single line of exactly 8
comma-separated fields in the order temperature, violet, blue, green,
yellow, orange, red, lux, terminated by a line break, and the lux field has
exactly 2 digits after the decimal point.  (The lux magnitude must be below
Print::printFloat's 4294967040 overflow guard, far above anything the
BH1750 can report; past it Arduino prints "ovf" instead.) -/
theorem record_format_eight_fields (c : CycleInput)
    (h : ¬(c.lux > 4294967040 ∨ c.lux < -4294967040)) :
    ∃ fs : List String,
      fs = [printNat c.temp,
            printNat (c.channels AS726x_VIOLET),
            printNat (c.channels AS726x_BLUE),
            printNat (c.channels AS726x_GREEN),
            printNat (c.channels AS726x_YELLOW),
            printNat (c.channels AS726x_ORANGE),
            printNat (c.channels AS726x_RED),
            printFloat c.lux 2] ∧
      fs.length = 8 ∧
      cycleLine c = String.intercalate "," fs ++ crlf ∧
      (∀ f ∈ fs, ∀ ch ∈ f.data, ch ≠ ',' ∧ ch ≠ '\x0d' ∧ ch ≠ '\n') ∧
      (∃ a b : List Char, (printFloat c.lux 2).data = a ++ '.' :: b ∧
        b.length = 2 ∧ (∀ ch ∈ b, ch.isDigit = true) ∧ '.' ∉ a) := by
  obtain ⟨a, b, hab, hblen, hbdig, hachar⟩ := printFloat_two_decimals c.lux h
  refine ⟨_, rfl, rfl, rfl, ?_, a, b, hab, hblen, hbdig, ?_⟩
  · intro f hf ch hch
    have hdig : ch.isDigit = true ∨ ch = '-' ∨ ch = '.' := by
      simp only [List.mem_cons, List.not_mem_nil, or_false] at hf
      rcases hf with rfl | rfl | rfl | rfl | rfl | rfl | rfl | rfl
      · exact Or.inl (mem_printNat_isDigit hch)
      · exact Or.inl (mem_printNat_isDigit hch)
      · exact Or.inl (mem_printNat_isDigit hch)
      · exact Or.inl (mem_printNat_isDigit hch)
      · exact Or.inl (mem_printNat_isDigit hch)
      · exact Or.inl (mem_printNat_isDigit hch)
      · exact Or.inl (mem_printNat_isDigit hch)
      · rw [hab] at hch
        rcases List.mem_append.mp hch with hch | hch
        · rcases hachar ch hch with rfl | hd
          · exact Or.inr (Or.inl rfl)
          · exact Or.inl hd
        · rcases List.mem_cons.mp hch with rfl | hch
          · exact Or.inr (Or.inr rfl)
          · exact Or.inl (hbdig ch hch)
    rcases hdig with hd | rfl | rfl
    · obtain ⟨h1, h2, h3, _, _⟩ := isDigit_not_special hd
      exact ⟨h1, h2, h3⟩
    · exact ⟨by decide, by decide, by decide⟩
    · exact ⟨by decide, by decide, by decide⟩
  · intro hdot
    rcases hachar '.' hdot with hd | hd
    · exact absurd hd (by decide)
    · exact absurd hd (by decide)

/-- Witness for record_format_eight_fields: the sample cycle with lux
123.456. -/
theorem record_format_eight_fields_witness :
    ¬(sampleCycle.lux > 4294967040 ∨ sampleCycle.lux < -4294967040) ∧
    ∃ fs : List String,
      fs = [printNat sampleCycle.temp,
            printNat (sampleCycle.channels AS726x_VIOLET),
            printNat (sampleCycle.channels AS726x_BLUE),
            printNat (sampleCycle.channels AS726x_GREEN),
            printNat (sampleCycle.channels AS726x_YELLOW),
            printNat (sampleCycle.channels AS726x_ORANGE),
            printNat (sampleCycle.channels AS726x_RED),
            printFloat sampleCycle.lux 2] ∧
      fs.length = 8 ∧
      cycleLine sampleCycle = String.intercalate "," fs ++ crlf ∧
      (∀ f ∈ fs, ∀ ch ∈ f.data, ch ≠ ',' ∧ ch ≠ '\x0d' ∧ ch ≠ '\n') ∧
      (∃ a b : List Char, (printFloat sampleCycle.lux 2).data = a ++ '.' :: b ∧
        b.length = 2 ∧ (∀ ch ∈ b, ch.isDigit = true) ∧ '.' ∉ a) :=
  ⟨by decide, record_format_eight_fields sampleCycle (by decide)⟩

/-- C2: the six spectral fields of every emitted record sit between the
temperature and lux fields in the fixed enum order violet (channel 0),
blue (1), green (2), yellow (3), orange (4), red (5); no cycle can emit
them in any other order, since the print sequence is the same straight-line
code for all cycles. -/
theorem spectral_field_order (c : CycleInput) :
    (AS726x_VIOLET, AS726x_BLUE, AS726x_GREEN, AS726x_YELLOW, AS726x_ORANGE,
      AS726x_RED) = ((0 : Fin 6), 1, 2, 3, 4, 5) ∧
    cycleLine c =
      printNat c.temp ++ "," ++
      printNat (c.channels 0) ++ "," ++ printNat (c.channels 1) ++ "," ++
      printNat (c.channels 2) ++ "," ++ printNat (c.channels 3) ++ "," ++
      printNat (c.channels 4) ++ "," ++ printNat (c.channels 5) ++ "," ++
      printFloat c.lux 2 ++ crlf :=
  ⟨rfl, rfl⟩

/-- C3: with temperature 24, channels (10,20,30,40,50,60) and lux 123.456,
the cycle emits exactly the line 24,10,20,30,40,50,60,123.46 followed by
the line terminator. -/
theorem concrete_scenario_line :
    cycleLine sampleCycle = "24,10,20,30,40,50,60,123.46" ++ crlf := by
  decide

/-- C4: whatever the shared buffer held before (arbitrary stale contents
buf), every record emitted during a run of consecutive cycles is exactly
the CSV line of the single cycle whose batch read produced it; channel
values and temperature of different cycles are never mixed. -/
theorem no_stale_spectral_data (cycles : ℕ → CycleInput) (fuel : ℕ)
    (buf : Fin 6 → ℕ) (k n : ℕ) (str : String)
    (h : Ev.emitLine str ∈ runCycles cycles fuel buf k n) :
    ∃ i, k ≤ i ∧ i < k + n ∧
      str = csvLine (cycles i).channels (cycles i).temp (cycles i).lux :=
  runCycles_emit n cycles fuel buf k str h

/-- Witness for no_stale_spectral_data: one cycle over a buffer prefilled
with the stale value 999. -/
theorem no_stale_spectral_data_witness :
    (Ev.emitLine (cycleLine sampleCycle) ∈
      runCycles (fun _ => sampleCycle) 1 (fun _ => 999) 0 1) ∧
    ∃ i, 0 ≤ i ∧ i < 0 + 1 ∧
      cycleLine sampleCycle =
        csvLine ((fun _ => sampleCycle) i).channels
          ((fun _ => sampleCycle) i).temp ((fun _ => sampleCycle) i).lux :=
  ⟨by decide,
   no_stale_spectral_data (fun _ => sampleCycle) 1 (fun _ => 999) 0 1
     (cycleLine sampleCycle) (by decide)⟩

/-- C5: a record is emitted only after a dataReady poll reported true: the
cycle's trace is exactly startMeasurement, k failing polls each followed by
the 5 ms pause, the succeeding poll, then the batch read, temperature read,
lux read, the single emitted record, and the pacing delay. -/
theorem emit_only_after_ready (c : CycleInput) (buf : Fin 6 → ℕ) (fuel : ℕ)
    (str : String) (h : Ev.emitLine str ∈ (doCycle c buf fuel).1) :
    ∃ k, k < fuel ∧ c.ready k = true ∧ (∀ j, j < k → c.ready j = false) ∧
      (doCycle c buf fuel).1 =
        (Ev.startMeasurement ::
          (List.flatten
            (List.replicate k [Ev.pollDataReady false, Ev.delayMs 5]) ++
           [Ev.pollDataReady true])) ++
        [Ev.readRawValues, Ev.readTemperature, Ev.readLightLevel,
         Ev.emitLine (cycleLine c), Ev.delayMs 1000] := by
  have hok : (pollTrace c.ready fuel).2 = true := by
    by_contra hok
    rw [doCycle_not_ready hok] at h
    rcases List.mem_cons.mp h with h | h
    · exact absurd h (by simp)
    · rcases pollTrace_events fuel c.ready _ h with h | h | h <;> simp at h
  obtain ⟨j, hj, hsj⟩ := (pollTrace_ok_iff fuel c.ready).mp hok
  have hex : ∃ k, c.ready k = true := ⟨j, hsj⟩
  refine ⟨Nat.find hex, ?_, Nat.find_spec hex,
    fun i hi => by simpa using Nat.find_min hex hi, ?_⟩
  · exact Nat.lt_of_le_of_lt (Nat.find_min' hex hsj) hj
  · rw [doCycle_ready hok]
    rw [pollTrace_first fuel (Nat.find hex) c.ready
      (Nat.lt_of_le_of_lt (Nat.find_min' hex hsj) hj) (Nat.find_spec hex)
      (fun i hi => by simpa using Nat.find_min hex hi)]

/-- Witness for emit_only_after_ready: sample cycle, ready at the first
poll. -/
theorem emit_only_after_ready_witness :
    (Ev.emitLine (cycleLine sampleCycle) ∈ (doCycle sampleCycle initBuf 1).1) ∧
    ∃ k, k < 1 ∧ sampleCycle.ready k = true ∧
      (∀ j, j < k → sampleCycle.ready j = false) ∧
      (doCycle sampleCycle initBuf 1).1 =
        (Ev.startMeasurement ::
          (List.flatten
            (List.replicate k [Ev.pollDataReady false, Ev.delayMs 5]) ++
           [Ev.pollDataReady true])) ++
        [Ev.readRawValues, Ev.readTemperature, Ev.readLightLevel,
         Ev.emitLine (cycleLine sampleCycle), Ev.delayMs 1000] :=
  ⟨by decide,
   emit_only_after_ready sampleCycle initBuf 1 (cycleLine sampleCycle)
     (by decide)⟩

/-- C6: if as7262.begin() reports failure, the whole run — whatever fuel
and cycle budget — is the fixed setup prefix ending in the single AS7262
failure diagnostic: no ready message, no CSV record, and no further output
ever (the firmware parks in while(1)). -/
theorem spectral_init_fail_terminal (e : Env) (fuel n : ℕ)
    (h : e.as7262Begin = false) :
    run e fuel n = [Ev.serialBegin 115200, Ev.busInit, Ev.pinModeOutput,
      Ev.as7262BeginCall false, Ev.emitLine as7262FailMsg] ∧
    output (run e fuel n) = as7262FailMsg := by
  constructor
  · simp [run, setupTrace, h]
  · simp [run, setupTrace, h, output]

/-- Witness for spectral_init_fail_terminal on envA. -/
theorem spectral_init_fail_terminal_witness :
    run envA 3 5 = [Ev.serialBegin 115200, Ev.busInit, Ev.pinModeOutput,
      Ev.as7262BeginCall false, Ev.emitLine as7262FailMsg] ∧
    output (run envA 3 5) = as7262FailMsg :=
  spectral_init_fail_terminal envA 3 5 rfl

/-- C7: if lightMeter.begin fails after as7262.begin() succeeded, the run
is the fixed setup prefix ending in the BH1750 failure diagnostic — it is
the last output ever, and no ready message or CSV line follows. -/
theorem illuminance_init_fail_terminal (e : Env) (fuel n : ℕ)
    (h1 : e.as7262Begin = true) (h2 : e.bh1750Begin = false) :
    run e fuel n = [Ev.serialBegin 115200, Ev.busInit, Ev.pinModeOutput,
      Ev.as7262BeginCall true, Ev.bh1750BeginCall false,
      Ev.emitLine bh1750FailMsg] ∧
    output (run e fuel n) = bh1750FailMsg := by
  constructor
  · simp [run, setupTrace, h1, h2]
  · simp [run, setupTrace, h1, h2, output]

/-- Witness for illuminance_init_fail_terminal on envB. -/
theorem illuminance_init_fail_terminal_witness :
    run envB 3 5 = [Ev.serialBegin 115200, Ev.busInit, Ev.pinModeOutput,
      Ev.as7262BeginCall true, Ev.bh1750BeginCall false,
      Ev.emitLine bh1750FailMsg] ∧
    output (run envB 3 5) = bh1750FailMsg :=
  illuminance_init_fail_terminal envB 3 5 rfl rfl

/-- C8: the dataReady poll has no timeout or escape path: if no poll ever
reports true the cycle stays in the poll loop for any fuel — the trace is
just startMeasurement followed by failing polls and 5 ms pauses, nothing is
emitted and the cycle never completes — and the loop exits exactly when
some poll within the allotted number reports true. -/
theorem poll_no_timeout (c : CycleInput) (buf : Fin 6 → ℕ) :
    ((∀ j, c.ready j = false) → ∀ fuel,
      doCycle c buf fuel =
        (Ev.startMeasurement ::
          List.flatten
            (List.replicate fuel [Ev.pollDataReady false, Ev.delayMs 5]),
         buf, false) ∧
      ∀ str, Ev.emitLine str ∉ (doCycle c buf fuel).1) ∧
    (∀ fuel, (pollTrace c.ready fuel).2 = true ↔
      ∃ k, k < fuel ∧ c.ready k = true) := by
  constructor
  · intro hnever fuel
    have hok : ¬(pollTrace c.ready fuel).2 = true := by
      rw [pollTrace_ok_iff]
      rintro ⟨k, _, hk⟩
      rw [hnever k] at hk
      exact Bool.false_ne_true hk
    constructor
    · rw [doCycle_not_ready hok, pollTrace_never fuel c.ready hnever]
    · intro str hmem
      rw [doCycle_not_ready hok] at hmem
      rcases List.mem_cons.mp hmem with hmem | hmem
      · exact absurd hmem (by simp)
      · rcases pollTrace_events fuel c.ready _ hmem with h | h | h <;> simp at h
  · exact fun fuel => pollTrace_ok_iff fuel c.ready

/-- Witness for poll_no_timeout: the never-ready cycle at fuel 2. -/
theorem poll_no_timeout_witness :
    (doCycle neverReadyCycle initBuf 2 =
      (Ev.startMeasurement ::
        List.flatten (List.replicate 2 [Ev.pollDataReady false, Ev.delayMs 5]),
       initBuf, false) ∧
     ∀ str, Ev.emitLine str ∉ (doCycle neverReadyCycle initBuf 2).1) ∧
    ((pollTrace neverReadyCycle.ready 2).2 = true ↔
      ∃ k, k < 2 ∧ neverReadyCycle.ready k = true) :=
  ⟨(poll_no_timeout neverReadyCycle initBuf).1 (fun _ => rfl) 2,
   (poll_no_timeout neverReadyCycle initBuf).2 2⟩

/-- C9: with both sensors up, the run is the one-time setup prefix — bus
and serial bring-up, LED pin configuration, the two begin() calls, the
BH1750 confirmation and exactly one final ready message — followed by the
measurement cycles; once the steady state begins the serial output is
exactly the concatenation of the per-cycle CSV lines, every emitted line
being the CSV record of its own cycle (no diagnostic interleaved).  The
readiness hypothesis keeps each of the n polls within fuel. -/
theorem setup_once_then_csv (e : Env) (fuel n : ℕ)
    (h1 : e.as7262Begin = true) (h2 : e.bh1750Begin = true)
    (hr : ∀ i, i < n → ∃ j, j < fuel ∧ (e.cycles i).ready j = true) :
    run e fuel n =
      [Ev.serialBegin 115200, Ev.busInit, Ev.pinModeOutput,
       Ev.as7262BeginCall true, Ev.bh1750BeginCall true,
       Ev.emitLine bh1750ReadyMsg, Ev.emitLine sensorsReadyMsg] ++
      runCycles e.cycles fuel initBuf 0 n ∧
    output (run e fuel n) =
      bh1750ReadyMsg ++ sensorsReadyMsg ++ csvBlock e.cycles 0 n ∧
    (∀ str, Ev.emitLine str ∈ runCycles e.cycles fuel initBuf 0 n →
      ∃ i, i < n ∧ str = cycleLine (e.cycles i)) := by
  have htr : run e fuel n =
      [Ev.serialBegin 115200, Ev.busInit, Ev.pinModeOutput,
       Ev.as7262BeginCall true, Ev.bh1750BeginCall true,
       Ev.emitLine bh1750ReadyMsg, Ev.emitLine sensorsReadyMsg] ++
      runCycles e.cycles fuel initBuf 0 n := by
    simp [run, setupTrace, h1, h2]
  refine ⟨htr, ?_, ?_⟩
  · rw [htr, output_append,
      runCycles_output n e.cycles fuel initBuf 0 (by simpa using hr)]
    simp [output, String.append_assoc]
  · intro str hmem
    obtain ⟨i, _, hi, hstr⟩ := runCycles_emit n e.cycles fuel initBuf 0 str hmem
    exact ⟨i, by omega, hstr⟩

/-- Witness for setup_once_then_csv: envOk, one cycle, fuel 1. -/
theorem setup_once_then_csv_witness :
    run envOk 1 1 =
      [Ev.serialBegin 115200, Ev.busInit, Ev.pinModeOutput,
       Ev.as7262BeginCall true, Ev.bh1750BeginCall true,
       Ev.emitLine bh1750ReadyMsg, Ev.emitLine sensorsReadyMsg] ++
      runCycles envOk.cycles 1 initBuf 0 1 ∧
    output (run envOk 1 1) =
      bh1750ReadyMsg ++ sensorsReadyMsg ++ csvBlock envOk.cycles 0 1 ∧
    (∀ str, Ev.emitLine str ∈ runCycles envOk.cycles 1 initBuf 0 1 →
      ∃ i, i < 1 ∧ str = cycleLine (envOk.cycles i)) :=
  setup_once_then_csv envOk 1 1 rfl rfl
    (fun _ _ => ⟨0, Nat.zero_lt_one, rfl⟩)

/-- C10: the firmware is deterministic in its sensor inputs: two
environments whose oracles agree pointwise — begin() results, every
dataReady poll, every channel value, temperature and lux of every cycle —
produce identical event traces and hence identical serial byte streams. -/
theorem output_deterministic (e1 e2 : Env) (fuel n : ℕ)
    (hA : e1.as7262Begin = e2.as7262Begin)
    (hB : e1.bh1750Begin = e2.bh1750Begin)
    (hready : ∀ i j, (e1.cycles i).ready j = (e2.cycles i).ready j)
    (hch : ∀ i ch, (e1.cycles i).channels ch = (e2.cycles i).channels ch)
    (ht : ∀ i, (e1.cycles i).temp = (e2.cycles i).temp)
    (hl : ∀ i, (e1.cycles i).lux = (e2.cycles i).lux) :
    run e1 fuel n = run e2 fuel n ∧
    output (run e1 fuel n) = output (run e2 fuel n) := by
  have hc : e1.cycles = e2.cycles := funext fun i =>
    CycleInput.ext (funext (hready i)) (funext (hch i)) (ht i) (hl i)
  have he : e1 = e2 := Env.ext hA hB hc
  rw [he]
  exact ⟨rfl, rfl⟩

/-- Witness for output_deterministic: envOk against itself. -/
theorem output_deterministic_witness :
    run envOk 1 2 = run envOk 1 2 ∧
    output (run envOk 1 2) = output (run envOk 1 2) :=
  output_deterministic envOk envOk 1 2 rfl rfl (fun _ _ => rfl)
    (fun _ _ => rfl) (fun _ => rfl) (fun _ => rfl)

end LightWell
